import Mathlib

/-!
Shallow embedding of the shridarpatil/rpc dispatcher (Go): the JSON codec,
the service registry (`serviceMap`), and the HTTP dispatch pipeline
(`Server.ServeHTTP`).  Strings are modelled at the ASCII level: the Go
`unicode` / `strings` case functions are embedded exactly for ASCII code
points and act as the identity above 0x7F (the full Unicode tables are an
external collaborator of the code under study; every concrete input used
below is ASCII).  Go panics (out-of-range string slicing, nil dereference)
are modelled as `Option.none`.
-/

set_option linter.unusedVariables false

namespace Rpc

/-- JSON values as carried by `json.RawMessage` / `interface{}` payloads.
Numbers and booleans are not needed by any modelled code path, so the
grammar is restricted to the constructors the codec actually produces. -/
inductive Json where
  | null : Json
  | str : String → Json
  | arr : List Json → Json
  | obj : List (String × Json) → Json

/-- A Go `error` value as seen by the codec: either a plain error whose
`Error()` method yields a message string, or the codec's structured
`*json.Error` wrapper carrying an arbitrary `Data` payload. -/
inductive GoError where
  | plain : String → GoError
  | withData : Json → GoError

/-! ### ASCII-level models of the Go `strings` / `unicode` helpers -/

/-- `strings.ToUpper` on a single ASCII character (identity above ASCII;
the Unicode tables are external). -/
def toUpperChar (c : Char) : Char :=
  if 'a' ≤ c ∧ c ≤ 'z' then Char.ofNat (c.toNat - 32) else c

/-- `strings.ToLower` on a single ASCII character. -/
def toLowerChar (c : Char) : Char :=
  if 'A' ≤ c ∧ c ≤ 'Z' then Char.ofNat (c.toNat + 32) else c

/-- `unicode.ToTitle` coincides with `unicode.ToUpper` on ASCII. -/
def toTitleChar (c : Char) : Char := toUpperChar c

/-- `unicode.IsUpper` for ASCII characters. -/
def isUpperChar (c : Char) : Bool := 'A' ≤ c ∧ c ≤ 'Z'

/-- The separator test used by Go's `strings.Title`: within ASCII,
alphanumerics and `_` are not separators and everything else is.  Above
ASCII Go consults the Unicode letter/digit/space tables (external); the
model treats non-ASCII as non-separator, and all theorems that quantify
over strings restrict their character set to ASCII identifier characters. -/
def isSepChar (c : Char) : Bool :=
  if c.toNat ≤ 0x7F then
    decide (¬ (('0' ≤ c ∧ c ≤ '9') ∨ ('a' ≤ c ∧ c ≤ 'z') ∨
               ('A' ≤ c ∧ c ≤ 'Z') ∨ c = '_'))
  else false

/-- The character map underlying `strings.Title`: a character is
title-cased exactly when the previous character is a separator (the
initial previous character is `' '`, a separator). -/
def titleMapChar : Char → List Char → List Char
  | _, [] => []
  | prev, c :: cs => (if isSepChar prev then toTitleChar c else c) :: titleMapChar c cs

/-- Go `strings.Title`. -/
def goTitle (s : String) : String := String.mk (titleMapChar ' ' s.data)

/-- Core recursion of Go `strings.Split` with a one-character separator.
`strings.Split("", sep) = [""]`, hence the `[[]]` base case. -/
def splitCharList (sep : Char) : List Char → List (List Char)
  | [] => [[]]
  | c :: cs =>
    match splitCharList sep cs with
    | [] => [[]]
    | h :: t => if c = sep then [] :: h :: t else (c :: h) :: t

/-- Go `strings.Split(s, sep)` for a one-character separator. -/
def goSplit (s : String) (sep : Char) : List String :=
  (splitCharList sep s.data).map String.mk

/-- Go `strings.Trim(s, cutset)` for a one-character cutset. -/
def goTrim (s : String) (cut : Char) : String :=
  String.mk (((s.data.dropWhile (· = cut)).reverse.dropWhile (· = cut)).reverse)

/-- List-level prefix test (component of `strings.HasPrefix`). -/
def leadsWith : List Char → List Char → Bool
  | [], _ => true
  | _ :: _, [] => false
  | a :: as, b :: bs => a = b && leadsWith as bs

/-- Go `strings.HasPrefix s pre`. -/
def startsWithStr (s pre : String) : Bool := leadsWith pre.data s.data

/-- Go `strings.TrimPrefix s pre`: removes `pre` from the front when
present, otherwise returns `s` unchanged. -/
def dropStartStr (s pre : String) : String :=
  if startsWithStr s pre then String.mk (s.data.drop pre.data.length) else s

/-- `contentType[:idx]` where `idx` is the first `';'` (the whole string
when there is none). -/
def stripParams (ct : String) : String := String.mk (ct.data.takeWhile (· ≠ ';'))

/-- Go `strings.ToLower` (ASCII model). -/
def goToLower (s : String) : String := String.mk (s.data.map toLowerChar)

/-- `url.Values.Get`: the first value stored under the key, `""` when the
key is absent or has no values. -/
def formGet (form : List (String × List String)) (key : String) : String :=
  match form.lookup key with
  | some (v :: _) => v
  | _ => ""

/-- `strings.ToUpper(s[:1]) + s[1:]` as used by `capitalizeMethod` and
`extractMethodFromURL`.  Go's `s[:1]` is a byte slice: on the empty string
it panics (`none`); the model reads the first character (ASCII level). -/
def capFirstGo (s : String) : Option String :=
  match s.data with
  | [] => none
  | c :: cs => some (String.mk (toUpperChar c :: cs))

/-- `isExported`: the first rune of the name is upper case
(`utf8.DecodeRuneInString` on `""` yields `RuneError`, which is not upper). -/
def isExported (name : String) : Bool :=
  match name.data with
  | [] => false
  | c :: _ => isUpperChar c

/-- `fmt` `%q` rendering of a name (escaping is external; every name in
scope is plain). -/
def goQuote (s : String) : String := "\"" ++ s ++ "\""

/-! ### HTTP request model and the JSON codec -/

/-- The server-side JSON-RPC request shape `{ "method": ..., "params": ... }`
(`serverRequest`). -/
structure ServerRequest where
  method : String
  params : Option Json

/-- An inbound `*http.Request` as far as the dispatcher and the JSON codec
consume it.  The body's JSON decoding and `ParseForm` are performed by the
external `encoding/json` / `net/http` collaborators, so their outcomes are
part of the request value: `body` is the result of
`json.NewDecoder(r.Body).Decode(new(serverRequest))` and `form` the parsed
`r.Form` (query parameters, grouped by key, in order). -/
structure HttpRequest where
  verb : String
  path : String
  contentType : String
  form : List (String × List String)
  body : Except String ServerRequest
  parseFormError : Option String

/-- `json.CodecRequest`: the decoded request (possibly `none`) plus a
pending codec error. -/
structure CodecRequest where
  request : Option ServerRequest
  err : Option GoError

/-- Source (a) of `extractMethodFromURL`: the non-empty remainder of a
`/rpc/`-prefixed path (`""` when absent). -/
def urlSourceA (r : HttpRequest) : String :=
  if startsWithStr r.path "/rpc/" then
    let methodPath := dropStartStr r.path "/rpc/"
    if methodPath ≠ "" then methodPath else ""
  else ""

/-- Source (b) of `extractMethodFromURL`: the last non-empty segment of
the `/`-trimmed path (`""` when absent). -/
def urlSourceB (r : HttpRequest) : String :=
  let pathParts := goSplit (goTrim r.path '/') '/'
  match pathParts.getLast? with
  | some lastPart => if lastPart ≠ "" then lastPart else ""
  | none => ""

/-- Source (c) of `extractMethodFromURL`: the `method` query/form field
(`""` when absent). -/
def urlSourceC (r : HttpRequest) : String :=
  let methodParam := formGet r.form "method"
  if methodParam ≠ "" then methodParam else ""

/-- The final formatting step of `extractMethodFromURL`: a non-empty name
with exactly two dot-separated parts has the first letter of each part
upper-cased; `none` models the Go panic of `parts[i][:1]` on an empty
part. -/
def capMethodSegments (methodName : String) : Option String :=
  if methodName ≠ "" then
    match goSplit methodName '.' with
    | [p0, p1] => do
        let svc ← capFirstGo p0
        let meth ← capFirstGo p1
        some (svc ++ "." ++ meth)
    | _ => some methodName
  else some ""

/-- `extractMethodFromURL`: the first non-empty of source (a), (b), (c)
(each tried only when the previous ones were empty), then the
capitalisation step. -/
def extractMethodFromURL (r : HttpRequest) : Option String :=
  capMethodSegments
    (if urlSourceA r ≠ "" then urlSourceA r
     else if urlSourceB r ≠ "" then urlSourceB r
     else urlSourceC r)

/-- `convertURLParamsToJSON`: drop the `method` key, then map each key to
its single value (a JSON string) or to the array of its values; keys with
no values are skipped.  `json.Marshal` of such a map cannot fail. -/
def convertURLParamsToJSON (form : List (String × List String)) : Json :=
  Json.obj ((form.filter (fun kv => kv.1 ≠ "method")).filterMap (fun kv =>
    match kv.2 with
    | [] => none
    | [v] => some (kv.1, Json.str v)
    | vs => some (kv.1, Json.arr (vs.map Json.str))))

/-- `newGetCodecRequest`. -/
def newGetCodecRequest (r : HttpRequest) (methodFromURL : String) : CodecRequest :=
  if methodFromURL = "" then
    { request := none, err := some (GoError.plain "rpc: method name missing") }
  else
    { request := some { method := methodFromURL
                        params := some (convertURLParamsToJSON r.form) }
      err := none }

/-- `newPostCodecRequest`: decode the body; a URL-supplied method fills an
empty body `method`; on a body decode error a URL-supplied method replaces
the request wholesale and clears the error.  When the decode failed and no
URL method exists, the partially decoded request is kept alongside the
error (its contents are never read because `err` is set). -/
def newPostCodecRequest (r : HttpRequest) (methodFromURL : String) : CodecRequest :=
  match r.body with
  | Except.ok req =>
      let req := if methodFromURL ≠ "" ∧ req.method = ""
                 then { req with method := methodFromURL } else req
      { request := some req, err := none }
  | Except.error e =>
      if methodFromURL ≠ "" then
        { request := some { method := methodFromURL, params := none }, err := none }
      else
        { request := some { method := "", params := none }
          err := some (GoError.plain e) }

/-- `Codec.NewRequest` of the JSON codec: `ParseForm`, URL method
extraction, then the GET or POST constructor. -/
def Codec.newRequest (r : HttpRequest) : Option CodecRequest :=
  match r.parseFormError with
  | some e => some { request := none, err := some (GoError.plain e) }
  | none =>
      match extractMethodFromURL r with
      | none => none
      | some methodFromURL =>
          if r.verb = "GET" then some (newGetCodecRequest r methodFromURL)
          else some (newPostCodecRequest r methodFromURL)

/-- `CodecRequest.Method()`: the decoded method name, or the pending codec
error.  `none` models the nil dereference of `c.request` when no error is
pending and no request was stored (not reachable from `Codec.newRequest`). -/
def CodecRequest.methodOf (c : CodecRequest) : Option (Except GoError String) :=
  match c.err with
  | some e => some (Except.error e)
  | none =>
      match c.request with
      | some req => some (Except.ok req.method)
      | none => none

/-- Response body forms: plain text, or the JSON body
`{ "result": ..., "error": ... }` (serialisation by `json.Marshal` is
external; the body is kept structured). -/
inductive RespBody where
  | text : String → RespBody
  | json : Json → Json → RespBody

/-- The HTTP response as written by the dispatcher or the codec: a status
code plus a body. -/
structure Response where
  status : Nat
  body : RespBody

/-- `CodecRequest.WriteResponse`: `{ "result": reply, "error": null }`,
written with status 200. -/
def CodecRequest.writeResponse (reply : Json) : Response :=
  { status := 200, body := RespBody.json reply Json.null }

/-- `CodecRequest.WriteError`: ignores the status argument, emits
`{ "result": null, "error": e }` with status 400, where `e` is the
structured `Data` payload for a `*json.Error` and the `Error()` message
otherwise. -/
def CodecRequest.writeError (status : Nat) (err : GoError) : Response :=
  { status := 400
    body := RespBody.json Json.null
      (match err with
       | GoError.withData d => d
       | GoError.plain msg => Json.str msg) }

/-- The package-level plain-text `WriteError` helper. -/
def writeErrorPlain (status : Nat) (msg : String) : Response :=
  { status := status, body := RespBody.text msg }

/-! ### The service registry (`serviceMap`) -/

/-- A registered service: its resolved name plus the method table (the
receiver value itself is opaque; the invocation closure lives on the
method entries).  The method payload type is a parameter so that the same
registry shape serves both the registration metadata and the dispatch
model. -/
structure ServiceT (M : Type) where
  name : String
  methods : List (String × M)

/-- `serviceMap`: the Go `map[string]*service` modelled as an association
list (a `nil` map and an empty map are indistinguishable to lookups). -/
structure ServiceMapT (M : Type) where
  services : List (String × ServiceT M)

/-- `serviceMap.get`: split on `.`, `strings.Title` each part, then look
up service and method. -/
def serviceGet {M : Type} (m : ServiceMapT M) (method : String) :
    Except String (ServiceT M × M) :=
  match goSplit method '.' with
  | [part0, part1] =>
      let p0 := goTitle part0
      let p1 := goTitle part1
      match m.services.lookup p0 with
      | none => Except.error ("rpc: can't find service " ++ p0)
      | some svc =>
          match svc.methods.lookup p1 with
          | none => Except.error ("rpc: can't find method " ++ p1)
          | some sm => Except.ok (svc, sm)
  | _ => Except.error ("rpc: service/method request ill-formed: " ++ method)

/-- `capitalizeMethod`: first-letter capitalisation of both parts of a
two-part dotted name, other shapes unchanged; `none` models the Go panic
on an empty part. -/
def capitalizeMethod (method : String) : Option String :=
  match goSplit method '.' with
  | [part0, part1] => do
      let svc ← capFirstGo part0
      let meth ← capFirstGo part1
      some (svc ++ "." ++ meth)
  | _ => some method

/-! ### Registration (`serviceMap.register`) -/

/-- A `reflect.Type` as far as `register` inspects it: pointers and named
base types carrying `Name()` and `PkgPath()`. -/
inductive GoType where
  | ptr : GoType → GoType
  | base : String → String → GoType
deriving DecidableEq, Repr

/-- The type `*http.Request`. -/
def httpRequestPtrT : GoType := GoType.ptr (GoType.base "Request" "net/http")

/-- The built-in `error` interface type (empty `PkgPath`). -/
def errorT : GoType := GoType.base "error" ""

/-- `t.Kind() == reflect.Ptr`. -/
def GoType.isPtr : GoType → Bool
  | GoType.ptr _ => true
  | GoType.base _ _ => false

/-- `t.Elem()` (only ever applied after an `isPtr` check). -/
def GoType.elem : GoType → GoType
  | GoType.ptr t => t
  | t => t

/-- The `for t.Kind() == reflect.Ptr { t = t.Elem() }` loop of
`isExportedOrBuiltin`. -/
def derefAll : GoType → GoType
  | GoType.ptr t => derefAll t
  | t => t

/-- `isExportedOrBuiltin`: after dereferencing, the type name is exported
or the package path is empty. -/
def isExportedOrBuiltin (t : GoType) : Bool :=
  match derefAll t with
  | GoType.base n p => isExported n || p = ""
  | GoType.ptr _ => false

/-- One entry of `rcvrType.Method(i)`: the method name, its `PkgPath`
(empty for exported methods), the full `In` list (index 0 is the
receiver) and the `Out` list. -/
structure RMethod where
  name : String
  pkgPath : String
  ins : List GoType
  outs : List GoType
deriving Repr

/-- A receiver as `register` introspects it:
`reflect.Indirect(rcvr).Type().Name()` plus the method set. -/
structure RcvrType where
  typeName : String
  methods : List RMethod
deriving Repr

/-- A registered method's metadata (`serviceMethod` minus the reflect
closures): the element types of the args and reply pointers and the
`noArgs` tag. -/
structure RegMethod where
  argsType : GoType
  replyType : GoType
  noArgs : Bool
deriving DecidableEq, Repr

/-- The body of the method loop of `register`: `some` exactly when the
method qualifies, carrying the stored metadata. -/
def qualifyMethod (mt : RMethod) : Option RegMethod :=
  if ¬ isExported mt.name then none
  else if mt.pkgPath ≠ "" then none
  else
    match h : mt.ins.length with
    | 4 =>
        -- regular method: receiver, *http.Request, *args, *reply
        if mt.ins.get? 1 ≠ some httpRequestPtrT then none
        else
          match mt.ins.get? 2, mt.ins.get? 3 with
          | some argType, some replyType =>
              if ¬ argType.isPtr then none
              else if ¬ isExportedOrBuiltin argType then none
              else if ¬ replyType.isPtr then none
              else if ¬ isExportedOrBuiltin replyType then none
              else if mt.outs.length ≠ 1 then none
              else if mt.outs.get? 0 ≠ some errorT then none
              else some { argsType := argType.elem
                          replyType := replyType.elem
                          noArgs := false }
          | _, _ => none
    | 3 =>
        -- NoArgs method: receiver, *http.Request, *reply
        if mt.ins.get? 1 ≠ some httpRequestPtrT then none
        else
          match mt.ins.get? 2 with
          | some replyType =>
              if ¬ replyType.isPtr then none
              else if ¬ isExportedOrBuiltin replyType then none
              else if mt.outs.length ≠ 1 then none
              else if mt.outs.get? 0 ≠ some errorT then none
              else some { argsType := (GoType.ptr (GoType.base "" "")).elem
                          replyType := replyType.elem
                          noArgs := true }
          | none => none
    | _ => none

/-- `serviceMap.register`, with the receiver's map threaded explicitly
(the Go method mutates `m.services` in place): returns the new registry
and `some` error message on failure.  The `nil`-map initialisation of the
Go code is invisible in the association-list model. -/
def serviceRegister (m : ServiceMapT RegMethod) (rcvr : RcvrType) (name : String) :
    ServiceMapT RegMethod × Option String :=
  let sname := if name ≠ "" then name else rcvr.typeName
  if name = "" ∧ ¬ isExported sname then
    (m, some ("rpc: type " ++ goQuote sname ++ " is not exported"))
  else if (m.services.lookup sname).isSome then
    (m, some ("rpc: service already defined: " ++ goQuote sname))
  else
    let methods := rcvr.methods.filterMap (fun mt =>
      (qualifyMethod mt).map (fun rm => (mt.name, rm)))
    if methods.length = 0 then
      (m, some ("rpc: " ++ goQuote sname ++ " has no exported methods of suitable type"))
    else
      ({ services := m.services ++ [(sname, { name := sname, methods := methods })] }, none)

/-! ### The dispatcher (`Server` and `ServeHTTP`) -/

/-- The `RequestInfo` passed to the intercept/before/validate hooks
(`Error` and `StatusCode` are still zero at those points; the values the
after hook receives are recorded on its event instead). -/
structure RequestInfo where
  method : String
  request : HttpRequest

/-- A dispatch-side method descriptor: the data `ServeHTTP` reads off a
`serviceMethod` and its reflect types.  `argsFieldPkgPaths` lists the
`PkgPath` of each field of the args struct (empty string = exported);
`unmarshal` is the external `json.Unmarshal` outcome for this args type
(`none` = success); `impl` is the method body, returning the written
reply value and the returned error; `replyZero` is `reflect.New(replyType)`'s
zero value.  The decoded args value handed to hooks and `impl` is `some p`
when unmarshalling the params `p` succeeded and `none` for the untouched
zero value. -/
structure DMethod where
  argsFieldPkgPaths : List String
  unmarshal : Json → Option GoError
  noArgs : Bool
  impl : HttpRequest → Option Json → Json × Option GoError
  replyZero : Json

/-- The RPC server.  Only the JSON codec exists, so the codec map is
modelled by its key set (`codecKeys`, stored lower-cased); `beforeFunc`
and `afterFunc` are observational, so only their presence is modelled,
while `interceptFunc` and `validateFunc` keep their functional payloads. -/
structure Server where
  codecKeys : List String
  services : ServiceMapT DMethod
  interceptFunc : Option (RequestInfo → Option HttpRequest)
  beforeFunc : Bool
  afterFunc : Bool
  validateFunc : Option (RequestInfo → Option Json → Option GoError)
  allowedMethods : List String

/-- `NewServer`. -/
def newServer : Server :=
  { codecKeys := []
    services := { services := [] }
    interceptFunc := none
    beforeFunc := false
    afterFunc := false
    validateFunc := none
    allowedMethods := ["POST", "GET", "DELETE", "PUT"] }

/-- `RegisterCodec` (the sole codec being the JSON one, only the key set
changes; keys are stored lower-cased). -/
def registerCodec (s : Server) (contentType : String) : Server :=
  { s with codecKeys := s.codecKeys ++ [goToLower contentType] }

/-- `removeMethod`: drop every occurrence, preserving order. -/
def removeMethod (s : Server) (methodToRemove : String) : Server :=
  { s with allowedMethods := s.allowedMethods.filter (fun m => m ≠ methodToRemove) }

/-- `DisableGET`. -/
def disableGET (s : Server) : Server := removeMethod s "GET"

/-- `DisablePOST`. -/
def disablePOST (s : Server) : Server := removeMethod s "POST"

/-- `DisablePUT`. -/
def disablePUT (s : Server) : Server := removeMethod s "PUT"

/-- `DisableDelete`. -/
def disableDelete (s : Server) : Server := removeMethod s "DELETE"

/-- Boolean success test on `Except`. -/
def exceptOk {ε α : Type} : Except ε α → Bool
  | Except.ok _ => true
  | Except.error _ => false

/-- `Server.getNormalizedMethod`: exact lookup first, then the
first-letter-capitalised variant, else a `method not found` error.
`none` propagates the `capitalizeMethod` panic. -/
def getNormalizedMethod {M : Type} (m : ServiceMapT M) (method : String) :
    Option (Except String String) :=
  if exceptOk (serviceGet m method) then some (Except.ok method)
  else
    match capitalizeMethod method with
    | none => none
    | some methodCapitalized =>
        if methodCapitalized ≠ method ∧ exceptOk (serviceGet m methodCapitalized) then
          some (Except.ok methodCapitalized)
        else some (Except.error ("rpc: method not found: " ++ method))

/-- Observable events of one dispatch, in execution order. -/
inductive Event where
  | wrote : Nat → Event
  | interceptCalled : Event
  | beforeCalled : Event
  | validateCalled : Event
  | methodInvoked : Event
  | afterCalled : String → Option GoError → Nat → Event

/-- The outcome of `ServeHTTP`: the written response, the event trace,
and (when the invocation stage was reached) the final reply value. -/
structure DispatchResult where
  response : Response
  events : List Event
  finalReply : Option Json

/-- The HTTP-verb allow-list check of `ServeHTTP`; `some` is the written
405 rejection. -/
def verbCheck (s : Server) (r : HttpRequest) : Option Response :=
  if s.allowedMethods.contains r.verb then none
  else some (writeErrorPlain 405
    ("rpc: only " ++ String.intercalate "," s.allowedMethods ++
     " methods are allowed, received " ++ r.verb))

/-- The `/rpc/`-path extraction block of `ServeHTTP`: `Except.ok ""` means
no path-supplied name, `Except.error` is the written 404, `none` the
`capitalizeMethod` panic. -/
def pathMethod (s : Server) (r : HttpRequest) : Option (Except Response String) :=
  if startsWithStr r.path "/rpc/" then
    let methodFromPath := dropStartStr r.path "/rpc/"
    if methodFromPath ≠ "" then
      match getNormalizedMethod s.services methodFromPath with
      | none => none
      | some (Except.error e) => some (Except.error (writeErrorPlain 404 e))
      | some (Except.ok normalizedMethod) => some (Except.ok normalizedMethod)
    else some (Except.ok methodFromPath)
  else some (Except.ok "")

/-- The codec-selection block of `ServeHTTP`.  The `Bool` records whether
a (necessarily JSON) codec was found; `false` reproduces the `nil` codec
a GET with an empty codec table leaves behind, and `Except.error` is the
written 415. -/
def selectCodec (s : Server) (r : HttpRequest) : Except Response Bool :=
  if r.verb = "GET" then
    if s.codecKeys.length = 1 then Except.ok true
    else if s.codecKeys.contains "application/json" then Except.ok true
    else Except.ok (!s.codecKeys.isEmpty)
  else
    let contentType := stripParams r.contentType
    if contentType = "" ∧ s.codecKeys.length = 1 then Except.ok true
    else if s.codecKeys.contains (goToLower contentType) then Except.ok true
    else Except.error (writeErrorPlain 415 ("rpc: unrecognized Content-Type: " ++ contentType))

/-- `CodecRequest.ReadRequest` into a fresh args value of the given
method's args type: returns the resulting error and the decoded args
value; `none` models the nil dereference of `c.request`. -/
def CodecRequest.readRequest (c : CodecRequest) (ms : DMethod) :
    Option (Option GoError × Option Json) :=
  match c.err with
  | some e => some (some e, none)
  | none =>
      match c.request with
      | none => none
      | some req =>
          let p := match req.params with
                   | some p => p
                   | none => Json.obj []
          match ms.unmarshal p with
          | none => some (none, some p)
          | some e => some (some e, none)

/-- The intercept-hook block of `ServeHTTP`: the (possibly substituted)
request plus the hook-call event. -/
def interceptStep (s : Server) (r : HttpRequest) (method : String) :
    HttpRequest × List Event :=
  match s.interceptFunc with
  | none => (r, ([] : List Event))
  | some f =>
      match f { method := method, request := r } with
      | some req => (req, [Event.interceptCalled])
      | none => (r, [Event.interceptCalled])

/-- The validate-hook block of `ServeHTTP`: called only when registered
and the method has args; the first component is `errValue[0]`. -/
def validateStep (s : Server) (requestInfo : RequestInfo) (ms : DMethod)
    (argsVal : Option Json) : Option GoError × List Event :=
  match s.validateFunc with
  | some f =>
      if ¬ ms.noArgs then (f requestInfo argsVal, [Event.validateCalled])
      else ((none : Option GoError), ([] : List Event))
  | none => ((none : Option GoError), ([] : List Event))

/-- The tail of `ServeHTTP` from the intercept hook onward: intercept,
before, validate, invoke, response write, after. -/
def afterArgs (s : Server) (r : HttpRequest) (method : String) (ms : DMethod)
    (argsVal : Option Json) : DispatchResult :=
  let istep := interceptStep s r method
  let r1 := istep.1
  let evBefore := if s.beforeFunc then [Event.beforeCalled] else ([] : List Event)
  let requestInfo : RequestInfo := { method := method, request := r1 }
  let vstep := validateStep s requestInfo ms argsVal
  let invokeStep :=
    match vstep.1 with
    | none =>
        let callResult := ms.impl r1 argsVal
        (callResult.1, callResult.2, [Event.methodInvoked])
    | some e => (ms.replyZero, some e, ([] : List Event))
  let reply := invokeStep.1
  let errResult := invokeStep.2.1
  let statusCode : Nat := match errResult with | none => 200 | some _ => 400
  let resp :=
    match errResult with
    | none => CodecRequest.writeResponse reply
    | some e => CodecRequest.writeError statusCode e
  let evAfter :=
    if s.afterFunc then [Event.afterCalled method errResult statusCode]
    else ([] : List Event)
  { response := resp
    events := istep.2 ++ evBefore ++ vstep.2 ++ invokeStep.2.2 ++
              [Event.wrote resp.status] ++ evAfter
    finalReply := some reply }

/-- The method-resolution block of `ServeHTTP`: a path-supplied name is
taken as is; otherwise the codec's method (written as a 400 on codec
error) is normalised through `getNormalizedMethod` (a miss written as a
400). -/
def resolveMethod (s : Server) (codecReq : CodecRequest) (methodFromPath : String) :
    Option (Except GoError String) :=
  if methodFromPath ≠ "" then some (Except.ok methodFromPath)
  else
    match codecReq.methodOf with
    | none => none
    | some (Except.error e) => some (Except.error e)
    | some (Except.ok m0) =>
        match getNormalizedMethod s.services m0 with
        | none => none
        | some (Except.ok normalizedMethod) => some (Except.ok normalizedMethod)
        | some (Except.error e) => some (Except.error (GoError.plain e))

/-- `Server.ServeHTTP`: verb check, path method, codec selection, codec
request construction, method resolution, argument decoding, then
`afterArgs`.  `none` models a Go panic. -/
def serveHTTP (s : Server) (r : HttpRequest) : Option DispatchResult :=
  match verbCheck s r with
  | some resp =>
      some { response := resp, events := [Event.wrote resp.status], finalReply := none }
  | none =>
  match pathMethod s r with
  | none => none
  | some (Except.error resp) =>
      some { response := resp, events := [Event.wrote resp.status], finalReply := none }
  | some (Except.ok methodFromPath) =>
  match selectCodec s r with
  | Except.error resp =>
      some { response := resp, events := [Event.wrote resp.status], finalReply := none }
  | Except.ok codecFound =>
  if ¬ codecFound then none
  else
  match Codec.newRequest r with
  | none => none
  | some codecReq =>
  match resolveMethod s codecReq methodFromPath with
  | none => none
  | some (Except.error e) =>
      let resp := CodecRequest.writeError 400 e
      some { response := resp, events := [Event.wrote resp.status], finalReply := none }
  | some (Except.ok method) =>
  match serviceGet s.services method with
  | Except.error e =>
      let resp := CodecRequest.writeError 400 (GoError.plain e)
      some { response := resp, events := [Event.wrote resp.status], finalReply := none }
  | Except.ok (_, ms) =>
  if ¬ ms.noArgs then
    match codecReq.readRequest ms with
    | none => none
    | some (some e, _) =>
        if ms.argsFieldPkgPaths.any (fun p => p = "") then
          let resp := CodecRequest.writeError 400 e
          some { response := resp, events := [Event.wrote resp.status], finalReply := none }
        else some (afterArgs s r method ms none)
    | some (none, argsVal) => some (afterArgs s r method ms argsVal)
  else some (afterArgs s r method ms none)

/-! ### Concrete instances used by witnesses and counterexamples -/

/-- The `Say` method of the example `HelloService`, as reflection sees
it: `func (h *HelloService) Say(r *http.Request, args *HelloArgs, reply
*HelloReply) error`. -/
def helloSayRM : RMethod :=
  { name := "Say"
    pkgPath := ""
    ins := [GoType.ptr (GoType.base "HelloService" "main"), httpRequestPtrT,
            GoType.ptr (GoType.base "HelloArgs" "main"),
            GoType.ptr (GoType.base "HelloReply" "main")]
    outs := [errorT] }

/-- The example receiver `&HelloService{}`. -/
def helloRcvrEx : RcvrType := { typeName := "HelloService", methods := [helloSayRM] }

/-- A receiver whose type name is not exported. -/
def lowerRcvrEx : RcvrType := { typeName := "helloService", methods := [helloSayRM] }

/-- Modelled from the spec's words for comparison with the code's
`strings.Title`: capitalise only the first letter of a segment and leave
the rest of the string unchanged. -/
def specCapFirst (s : String) : String :=
  match s.data with
  | [] => ""
  | c :: cs => String.mk (toUpperChar c :: cs)

/-- Lookup of a service/method pair by its exact registered keys, with
`serviceGet`'s error values but no normalisation. -/
def directLookup {M : Type} (m : ServiceMapT M) (svc meth : String) :
    Except String (ServiceT M × M) :=
  match m.services.lookup svc with
  | none => Except.error ("rpc: can't find service " ++ svc)
  | some s =>
      match s.methods.lookup meth with
      | none => Except.error ("rpc: can't find method " ++ meth)
      | some sm => Except.ok (s, sm)

/-- Modelled from the spec: the method-qualification rules as §4.1 words
them — exported name, a 4- or 3-entry `In` list (receiver included) with
`*http.Request` at index 1, pointer args/reply to exported or builtin
types, and a single `error` result. -/
def qualifiesSpec (mt : RMethod) : Bool :=
  isExported mt.name && (mt.pkgPath == "") &&
  (decide (mt.ins.get? 1 = some httpRequestPtrT)) &&
  (decide (mt.outs = [errorT])) &&
  ((mt.ins.length == 4 &&
      (match mt.ins.get? 2, mt.ins.get? 3 with
       | some a, some rp =>
           a.isPtr && isExportedOrBuiltin a && rp.isPtr && isExportedOrBuiltin rp
       | _, _ => false)) ||
   (mt.ins.length == 3 &&
      (match mt.ins.get? 2 with
       | some rp => rp.isPtr && isExportedOrBuiltin rp
       | none => false)))

/-- A POST to the legacy `/rpc` endpoint whose JSON body names a method:
the last non-empty path segment (`"rpc"`) is a non-empty URL source, yet
the body's `method` field wins. -/
def rC1ex : HttpRequest :=
  { verb := "POST"
    path := "/rpc"
    contentType := "application/json"
    form := []
    body := Except.ok { method := "helloservice.say", params := none }
    parseFormError := none }

/-- A server with the JSON codec registered (defaults otherwise). -/
def srvC1ex : Server := { newServer with codecKeys := ["application/json"] }

/-- The registry used by the C2 counterexample: a service registered
under the explicit (hyphenated, exported) name `My-Svc`. -/
def dashMapEx : ServiceMapT Unit :=
  { services := [("My-Svc", { name := "My-Svc", methods := [("Do", ())] })] }

/-- The registry used by the C2 witness: a service registered under
`Helloservice` (the first-letter capitalisation of `helloservice`). -/
def helloUMapEx : ServiceMapT Unit :=
  { services := [("Helloservice", { name := "Helloservice", methods := [("Say", ())] })] }

/-- The registry already holding the example service, for the C8
duplicate case. -/
def dupMapEx : ServiceMapT RegMethod :=
  (serviceRegister { services := [] } helloRcvrEx "").1

/-- A receiver none of whose methods qualify (the only method's name is
unexported). -/
def badRcvrEx : RcvrType :=
  { typeName := "BadService"
    methods := [{ name := "say"
                  pkgPath := ""
                  ins := [GoType.ptr (GoType.base "BadService" "main"), httpRequestPtrT,
                          GoType.ptr (GoType.base "HelloReply" "main")]
                  outs := [errorT] }] }

/-- `Event` predicate: an after-hook invocation. -/
def Event.isAfter : Event → Bool
  | Event.afterCalled _ _ _ => true
  | _ => false

/-- `Event` predicate: a response write. -/
def Event.isWrite : Event → Bool
  | Event.wrote _ => true
  | _ => false

/-- GET for a missing method via the `/rpc/<name>` path. -/
def rMissPathEx : HttpRequest :=
  { verb := "GET", path := "/rpc/helloservice.missing", contentType := ""
    form := [], body := Except.error "EOF", parseFormError := none }

/-- POST naming the missing method in its JSON body. -/
def rMissBodyEx : HttpRequest :=
  { verb := "POST", path := "/rpc", contentType := "application/json"
    form := [], body := Except.ok { method := "helloservice.missing", params := none }
    parseFormError := none }

/-- The codec request the JSON codec builds for `rMissBodyEx`. -/
def crMissEx : CodecRequest :=
  { request := some { method := "helloservice.missing", params := none }, err := none }

/-- A method whose argument decoding always fails and whose args struct
has one exported field (`PkgPath` empty). -/
def decodeFailA : DMethod :=
  { argsFieldPkgPaths := [""]
    unmarshal := fun _ => some (GoError.plain "json: cannot unmarshal")
    noArgs := false
    impl := fun _ _ => (Json.obj [], none)
    replyZero := Json.obj [] }

/-- The same method with an args struct that has no fields at all. -/
def decodeFailB : DMethod := { decodeFailA with argsFieldPkgPaths := [] }

/-- A method whose argument decoding succeeds. -/
def okArgsEx : DMethod :=
  { argsFieldPkgPaths := [""]
    unmarshal := fun _ => none
    noArgs := false
    impl := fun _ _ => (Json.obj [], none)
    replyZero := Json.null }

/-- Server holding the failing-decode method with an exported args field. -/
def srvDecodeA : Server :=
  { newServer with
    codecKeys := ["application/json"]
    services := { services := [("Svc", { name := "Svc", methods := [("Do", decodeFailA)] })] } }

/-- Server holding the failing-decode method with no visible args fields. -/
def srvDecodeB : Server :=
  { newServer with
    codecKeys := ["application/json"]
    services := { services := [("Svc", { name := "Svc", methods := [("Do", decodeFailB)] })] } }

/-- POST invoking `Svc.Do` with params `"x"`. -/
def rDecodeEx : HttpRequest :=
  { verb := "POST", path := "/rpc", contentType := "application/json"
    form := []
    body := Except.ok { method := "Svc.Do", params := some (Json.str "x") }
    parseFormError := none }

/-- The codec request the JSON codec builds for `rDecodeEx`. -/
def crDecodeEx : CodecRequest :=
  { request := some { method := "Svc.Do", params := some (Json.str "x") }, err := none }

/-- A validate hook rejecting every request. -/
def valRejectEx : RequestInfo → Option Json → Option GoError :=
  fun _ _ => some (GoError.plain "rejected")

/-- Server with the rejecting validate hook and a decodable method. -/
def srvValEx : Server :=
  { newServer with
    codecKeys := ["application/json"]
    services := { services := [("Svc", { name := "Svc", methods := [("Do", okArgsEx)] })] }
    validateFunc := some valRejectEx }

/-- Server with the after hook registered and a decodable method. -/
def srvC7Ex : Server :=
  { newServer with
    codecKeys := ["application/json"]
    services := { services := [("Svc", { name := "Svc", methods := [("Do", okArgsEx)] })] }
    afterFunc := true }

/-- The dispatch tail of `srvC7Ex` handling `rDecodeEx`. -/
def c7ResultEx : DispatchResult :=
  afterArgs srvC7Ex rDecodeEx "Svc.Do" okArgsEx (some (Json.str "x"))

/-- Server with the after hook registered and DELETE disabled. -/
def srvAfterEx : Server :=
  disableDelete { newServer with codecKeys := ["application/json"], afterFunc := true }

/-- A DELETE request, which `srvAfterEx` rejects with a 405. -/
def rBadVerbEx : HttpRequest :=
  { verb := "DELETE", path := "/rpc", contentType := "application/json"
    form := [], body := Except.ok { method := "helloservice.say", params := none }
    parseFormError := none }

/-! ### C9 -/

/-- C9: the JSON codec's `WriteResponse` writes
`{ "result": reply, "error": null }` with status 200, and `WriteError`
writes `{ "result": null, "error": e }` with status 400 whatever status
argument it is handed — `e` being the untouched `Data` payload for the
structured `*json.Error` type and the `Error()` message string
otherwise. -/
theorem c9_write_response_and_error :
    (∀ reply : Json, CodecRequest.writeResponse reply =
        { status := 200, body := RespBody.json reply Json.null }) ∧
    (∀ (status : Nat) (d : Json), CodecRequest.writeError status (GoError.withData d) =
        { status := 400, body := RespBody.json Json.null d }) ∧
    (∀ (status : Nat) (msg : String), CodecRequest.writeError status (GoError.plain msg) =
        { status := 400, body := RespBody.json Json.null (Json.str msg) }) :=
  ⟨fun _ => rfl, fun _ _ => rfl, fun _ _ => rfl⟩

/-! ### C10 -/

/-- C10: a failed registration is atomic — whenever `register` returns an
error (name not exported, duplicate service, or no suitable methods), the
registry is exactly what it was before the call. -/
theorem c10_register_error_atomic (m : ServiceMapT RegMethod) (rcvr : RcvrType)
    (name : String) (e : String)
    (h : (serviceRegister m rcvr name).2 = some e) :
    (serviceRegister m rcvr name).1 = m := by
  have hcases : (serviceRegister m rcvr name).1 = m ∨
      (serviceRegister m rcvr name).2 = none := by
    simp only [serviceRegister]
    repeat' split
    all_goals first
      | exact Or.inl rfl
      | exact Or.inr rfl
  rcases hcases with h1 | h2
  · exact h1
  · rw [h] at h2
    cases h2

/-- Witness for C10: registering a receiver with an unexported type name
fails and leaves the concrete one-entry registry untouched. -/
theorem c10_register_error_atomic_witness :
    (serviceRegister { services := [] } lowerRcvrEx "").2 =
        some "rpc: type \"helloService\" is not exported" ∧
    (serviceRegister { services := [] } lowerRcvrEx "").1 =
        ({ services := [] } : ServiceMapT RegMethod) :=
  ⟨rfl, c10_register_error_atomic { services := [] } lowerRcvrEx ""
      "rpc: type \"helloService\" is not exported" rfl⟩

/-! ### C1 -/

/-- C1 counterexample: for the POST to `/rpc` with body method
`helloservice.say`, the dispatcher has no path-supplied name, URL source
(b) (the last non-empty path segment) is the non-empty `"rpc"` — the
claim's first non-empty source — yet the codec reports the body's
`helloservice.say`, not `"rpc"`. -/
theorem c1_counterexample :
    pathMethod srvC1ex rC1ex = some (Except.ok "") ∧
    urlSourceA rC1ex = "" ∧
    urlSourceB rC1ex = "rpc" ∧
    extractMethodFromURL rC1ex = some "rpc" ∧
    (Codec.newRequest rC1ex).bind CodecRequest.methodOf =
      some (Except.ok "helloservice.say") ∧
    ("helloservice.say" : String) ≠ "rpc" :=
  ⟨rfl, rfl, rfl, rfl, rfl, by decide⟩

/-- C1 (amended): when the dispatcher has no path-supplied name, the
JSON codec reports, for non-GET requests, the `method` field of a
successfully decoded body first when it is non-empty; only otherwise
(body field empty, or body undecodable) the URL-derived name, which is
chosen by the precedence reserved `/rpc/` prefix, then last non-empty
path segment, then `method` query/form field, with first-letter
capitalisation of two-segment dotted names; GET requests use only the
URL-derived name and its absence is an error. -/
theorem c1_method_source_order (r : HttpRequest)
    (hpf : r.parseFormError = none)
    (u : String) (hu : extractMethodFromURL r = some u) :
    (r.verb ≠ "GET" → ∀ req, r.body = Except.ok req → req.method ≠ "" →
        (Codec.newRequest r).bind CodecRequest.methodOf = some (Except.ok req.method)) ∧
    (r.verb ≠ "GET" → ∀ req, r.body = Except.ok req → req.method = "" →
        (Codec.newRequest r).bind CodecRequest.methodOf = some (Except.ok u)) ∧
    (r.verb ≠ "GET" → u ≠ "" → ∀ e, r.body = Except.error e →
        (Codec.newRequest r).bind CodecRequest.methodOf = some (Except.ok u)) ∧
    (r.verb = "GET" → u ≠ "" →
        (Codec.newRequest r).bind CodecRequest.methodOf = some (Except.ok u)) ∧
    (r.verb = "GET" → u = "" →
        (Codec.newRequest r).bind CodecRequest.methodOf =
          some (Except.error (GoError.plain "rpc: method name missing"))) ∧
    (urlSourceA r ≠ "" →
        extractMethodFromURL r = capMethodSegments (urlSourceA r)) ∧
    (urlSourceA r = "" → urlSourceB r ≠ "" →
        extractMethodFromURL r = capMethodSegments (urlSourceB r)) ∧
    (urlSourceA r = "" → urlSourceB r = "" →
        extractMethodFromURL r = capMethodSegments (urlSourceC r)) := by
  refine ⟨?_, ?_, ?_, ?_, ?_, ?_, ?_, ?_⟩
  · intro hverb req hok hm
    simp [Codec.newRequest, hpf, hu, hverb, newPostCodecRequest, hok,
          CodecRequest.methodOf, hm]
  · intro hverb req hok hm
    by_cases hu0 : u = ""
    · subst hu0
      simp [Codec.newRequest, hpf, hu, hverb, newPostCodecRequest, hok,
            CodecRequest.methodOf, hm]
    · simp [Codec.newRequest, hpf, hu, hverb, newPostCodecRequest, hok,
            CodecRequest.methodOf, hm, hu0]
  · intro hverb hu0 e herr
    simp [Codec.newRequest, hpf, hu, hverb, newPostCodecRequest, herr,
          CodecRequest.methodOf, hu0]
  · intro hverb hu0
    simp [Codec.newRequest, hpf, hu, hverb, newGetCodecRequest,
          CodecRequest.methodOf, hu0]
  · intro hverb hu0
    subst hu0
    simp [Codec.newRequest, hpf, hu, hverb, newGetCodecRequest,
          CodecRequest.methodOf]
  · intro hA
    simp [extractMethodFromURL, hA]
  · intro hA hB
    simp [extractMethodFromURL, hA, hB]
  · intro hA hB
    simp [extractMethodFromURL, hA, hB]

/-- Witness for C1: the amended precedence applied to the concrete POST
of the counterexample input — the decoded body's non-empty method is the
reported name. -/
theorem c1_method_source_order_witness :
    rC1ex.parseFormError = none ∧
    extractMethodFromURL rC1ex = some "rpc" ∧
    rC1ex.verb ≠ "GET" ∧
    rC1ex.body = Except.ok { method := "helloservice.say", params := none } ∧
    ("helloservice.say" : String) ≠ "" ∧
    (Codec.newRequest rC1ex).bind CodecRequest.methodOf =
      some (Except.ok "helloservice.say") :=
  ⟨rfl, rfl, by decide, rfl, by decide,
   (c1_method_source_order rC1ex rfl "rpc" rfl).1 (by decide)
     { method := "helloservice.say", params := none } rfl (by decide)⟩

/-! ### C2 -/

/-- Splitting a separator-free list yields the single chunk. -/
theorem splitCharList_no_sep (sep : Char) (l : List Char) (h : sep ∉ l) :
    splitCharList sep l = [l] := by
  induction l with
  | nil => rfl
  | cons c cs ih =>
      have hc : ¬ c = sep := fun e => h (e ▸ List.mem_cons_self c cs)
      have hcs := ih (fun hm => h (List.mem_cons_of_mem _ hm))
      simp [splitCharList, hcs, hc]

/-- Splitting around a single separator yields the two chunks. -/
theorem splitCharList_append_sep (sep : Char) (a b : List Char)
    (ha : sep ∉ a) (hb : sep ∉ b) :
    splitCharList sep (a ++ sep :: b) = [a, b] := by
  induction a with
  | nil => simp [splitCharList, splitCharList_no_sep sep b hb]
  | cons c cs ih =>
      have hc : ¬ c = sep := fun e => ha (e ▸ List.mem_cons_self c cs)
      have hcs := ih (fun hm => ha (List.mem_cons_of_mem _ hm))
      simp [splitCharList, hcs, hc]

/-- `goSplit` of a dotted name with dot-free halves. -/
theorem goSplit_append_dot (a b : String) (ha : ('.' : Char) ∉ a.data)
    (hb : ('.' : Char) ∉ b.data) :
    goSplit (a ++ "." ++ b) '.' = [a, b] := by
  unfold goSplit
  have hdata : (a ++ "." ++ b).data = a.data ++ '.' :: b.data := by
    simp [String.data_append]
  rw [hdata, splitCharList_append_sep '.' a.data b.data ha hb]
  rfl

/-- `strings.Title`'s character map is the identity once the previous
character is a non-separator and the list stays separator-free. -/
theorem titleMapChar_id (l : List Char) (h : ∀ c ∈ l, isSepChar c = false) :
    ∀ prev, isSepChar prev = false → titleMapChar prev l = l := by
  induction l with
  | nil => intro prev _; rfl
  | cons c cs ih =>
      intro prev hprev
      have hc : isSepChar c = false := h c (List.mem_cons_self c cs)
      simp [titleMapChar, hprev,
            ih (fun x hx => h x (List.mem_cons_of_mem _ hx)) c hc]

/-- On separator-free strings, `strings.Title` coincides with the
first-letter-only capitalisation the spec describes. -/
theorem goTitle_eq_specCapFirst (s : String)
    (h : ∀ c ∈ s.data, isSepChar c = false) :
    goTitle s = specCapFirst s := by
  have hsp : isSepChar ' ' = true := by decide
  unfold goTitle specCapFirst
  rcases hs : s.data with _ | ⟨c, cs⟩
  · rfl
  · have hc : isSepChar c = false := h c (hs ▸ List.mem_cons_self c cs)
    have hcs : ∀ x ∈ cs, isSepChar x = false :=
      fun x hx => h x (hs ▸ List.mem_cons_of_mem _ hx)
    simp [titleMapChar, hsp, toTitleChar, titleMapChar_id cs hcs c hc]

/-- C2 counterexample: the claim says a name whose inner-letter casing
does not match the registered name after first-letter capitalisation must
fail lookup; but `get` uses `strings.Title`, so `"my-svc.do"` — whose
first-letter capitalisation `"My-svc.Do"` matches no registered name —
still resolves the descriptor registered as `"My-Svc.Do"`. -/
theorem c2_counterexample :
    serviceGet dashMapEx "my-svc.do" =
      Except.ok ({ name := "My-Svc", methods := [("Do", ())] }, ()) ∧
    capitalizeMethod "my-svc.do" = some "My-svc.Do" ∧
    ("My-svc" : String) ≠ "My-Svc" :=
  ⟨rfl, rfl, by decide⟩

/-- C2 (amended): `get` title-cases each of the two dot-separated
segments with Go's `strings.Title` — capitalising the first letter and
every letter that follows a separator character (anything other than an
ASCII alphanumeric or underscore) while leaving all other characters
unchanged.  For segments free of separator characters this is exactly
the first-letter-only capitalisation the claim describes, and lookup
succeeds exactly on the descriptor registered under the capitalised
keys; segments with inner separators (e.g. `"my-svc"`) additionally get
inner letters capitalised. -/
theorem c2_get_title_cases {M : Type} (m : ServiceMapT M) (a b : String)
    (ha : ∀ c ∈ a.data, isSepChar c = false)
    (hb : ∀ c ∈ b.data, isSepChar c = false) :
    serviceGet m (a ++ "." ++ b) = directLookup m (specCapFirst a) (specCapFirst b) := by
  have hda : ('.' : Char) ∉ a.data := fun hm => absurd (ha '.' hm) (by decide)
  have hdb : ('.' : Char) ∉ b.data := fun hm => absurd (hb '.' hm) (by decide)
  simp only [serviceGet, directLookup, goSplit_append_dot a b hda hdb,
             goTitle_eq_specCapFirst a ha, goTitle_eq_specCapFirst b hb]

/-- Witness for C2: `get("helloservice.say")` equals the direct lookup of
`Helloservice` / `Say` — the claim's own example, on separator-free
segments. -/
theorem c2_get_title_cases_witness :
    (∀ c ∈ ("helloservice" : String).data, isSepChar c = false) ∧
    (∀ c ∈ ("say" : String).data, isSepChar c = false) ∧
    serviceGet helloUMapEx ("helloservice" ++ "." ++ "say") =
      directLookup helloUMapEx (specCapFirst "helloservice") (specCapFirst "say") :=
  ⟨by decide, by decide,
   c2_get_title_cases helloUMapEx "helloservice" "say" (by decide) (by decide)⟩

/-! ### C4 -/

/-- C4 counterexample: the claim says a non-empty explicit name starting
with a lower-case letter makes `register` fail with the name-not-exported
error, but registering the example service under the explicit name
`"foo"` succeeds and stores it under `"foo"`. -/
theorem c4_counterexample :
    isExported "foo" = false ∧
    (serviceRegister { services := [] } helloRcvrEx "foo").2 = none ∧
    ((serviceRegister { services := [] } helloRcvrEx "foo").1.services.lookup "foo").isSome
      = true :=
  ⟨rfl, rfl, rfl⟩

/-- C4 (amended): the exported-first-letter check applies only when the
service name is inferred from the receiver's type (explicit name empty);
with an inferred unexported name `register` fails with the
name-not-exported error, while a non-empty explicit name — whatever its
first letter — is never rejected for its case: registration with it
either succeeds or fails only with the duplicate-service or
no-suitable-methods error. -/
theorem c4_name_check_only_when_inferred
    (m1 m2 : ServiceMapT RegMethod) (r1 r2 : RcvrType) (n2 : String)
    (h1 : isExported r1.typeName = false) (h2 : n2 ≠ "") :
    (serviceRegister m1 r1 "").2 =
        some ("rpc: type " ++ goQuote r1.typeName ++ " is not exported") ∧
    ((serviceRegister m2 r2 n2).2 =
        some ("rpc: service already defined: " ++ goQuote n2) ∨
     (serviceRegister m2 r2 n2).2 =
        some ("rpc: " ++ goQuote n2 ++ " has no exported methods of suitable type") ∨
     (serviceRegister m2 r2 n2).2 = none) := by
  constructor
  · simp [serviceRegister, h1]
  · simp only [serviceRegister, if_pos h2]
    split
    · simp at h2; simp_all
    · split
      · exact Or.inl rfl
      · split
        · exact Or.inr (Or.inl rfl)
        · exact Or.inr (Or.inr rfl)

/-- Witness for C4: the inferred name `helloService` is rejected, while
the explicit lower-case name `"foo"` leads to one of the non-case
outcomes. -/
theorem c4_name_check_only_when_inferred_witness :
    isExported lowerRcvrEx.typeName = false ∧ ("foo" : String) ≠ "" ∧
    ((serviceRegister { services := [] } lowerRcvrEx "").2 =
        some ("rpc: type " ++ goQuote lowerRcvrEx.typeName ++ " is not exported") ∧
     ((serviceRegister { services := [] } helloRcvrEx "foo").2 =
        some ("rpc: service already defined: " ++ goQuote "foo") ∨
      (serviceRegister { services := [] } helloRcvrEx "foo").2 =
        some ("rpc: " ++ goQuote "foo" ++ " has no exported methods of suitable type") ∨
      (serviceRegister { services := [] } helloRcvrEx "foo").2 = none)) :=
  ⟨rfl, by decide,
   c4_name_check_only_when_inferred { services := [] } { services := [] }
     lowerRcvrEx helloRcvrEx "foo" rfl (by decide)⟩

/-! ### C8 -/

/-- A one-element `GoType` list with the right head is exactly `[errorT]`. -/
theorem len_one_get_eq (l : List GoType) (h1 : l.length = 1) (h2 : l[0]? = some errorT) :
    l = [errorT] := by
  rcases l with _ | ⟨x, xs⟩
  · simp at h1
  · rcases xs with _ | ⟨y, ys⟩
    · simp at h2; simp [h2]
    · simp at h1

set_option maxHeartbeats 1000000 in
/-- The loop body of `register` accepts a method exactly when the spec's
qualification rules hold. -/
theorem qualify_matches_spec (mt : RMethod) :
    (qualifyMethod mt).isSome = qualifiesSpec mt := by
  unfold qualifyMethod qualifiesSpec
  by_cases h1 : isExported mt.name = true
  case neg => simp [h1]
  rw [if_neg (by simp [h1])]
  by_cases h2 : mt.pkgPath = ""
  case neg => simp [h1, h2]
  rw [if_neg (by simp [h2])]
  split
  case _ hl =>
    rw [hl]
    by_cases hg1 : mt.ins[1]? = some httpRequestPtrT
    case neg => simp [h1, h2, hg1]
    rcases hg2 : mt.ins[2]? with _ | a
    · simp [h1, h2, hg1, hg2]
    rcases hg3 : mt.ins[3]? with _ | rp
    · simp [h1, h2, hg1, hg2, hg3]
    by_cases houts : mt.outs = [errorT]
    · cases hpa : a.isPtr <;> cases hea : isExportedOrBuiltin a <;>
        cases hpr : rp.isPtr <;> cases her : isExportedOrBuiltin rp <;>
        simp [h1, h2, hg1, hg2, hg3, hpa, hea, hpr, her, houts]
    · by_cases hlen : mt.outs.length = 1
      · have hget : ¬ mt.outs[0]? = some errorT := fun hg =>
          houts (len_one_get_eq mt.outs hlen hg)
        have h0 : 0 < mt.outs.length := by omega
        have hget2 : ¬ mt.outs[0] = errorT := fun he =>
          hget (by rw [List.getElem?_eq_getElem h0, he])
        cases hpa : a.isPtr <;> cases hea : isExportedOrBuiltin a <;>
          cases hpr : rp.isPtr <;> cases her : isExportedOrBuiltin rp <;>
          simp [h1, h2, hg1, hg2, hg3, hpa, hea, hpr, her, hlen, hget, hget2, houts]
      · cases hpa : a.isPtr <;> cases hea : isExportedOrBuiltin a <;>
          cases hpr : rp.isPtr <;> cases her : isExportedOrBuiltin rp <;>
          simp [h1, h2, hg1, hg2, hg3, hpa, hea, hpr, her, hlen, houts]
  case _ hl =>
    rw [hl]
    by_cases hg1 : mt.ins[1]? = some httpRequestPtrT
    case neg => simp [h1, h2, hg1]
    rcases hg2 : mt.ins[2]? with _ | rp
    · simp [h1, h2, hg1, hg2]
    by_cases houts : mt.outs = [errorT]
    · cases hpr : rp.isPtr <;> cases her : isExportedOrBuiltin rp <;>
        simp [h1, h2, hg1, hg2, hpr, her, houts]
    · by_cases hlen : mt.outs.length = 1
      · have hget : ¬ mt.outs[0]? = some errorT := fun hg =>
          houts (len_one_get_eq mt.outs hlen hg)
        have h0 : 0 < mt.outs.length := by omega
        have hget2 : ¬ mt.outs[0] = errorT := fun he =>
          hget (by rw [List.getElem?_eq_getElem h0, he])
        cases hpr : rp.isPtr <;> cases her : isExportedOrBuiltin rp <;>
          simp [h1, h2, hg1, hg2, hpr, her, hlen, hget, hget2, houts]
      · cases hpr : rp.isPtr <;> cases her : isExportedOrBuiltin rp <;>
          simp [h1, h2, hg1, hg2, hpr, her, hlen, houts]
  case _ h4 h3 =>
    simp [h1, h2, h4, h3]
    exact fun _ _ => ⟨fun hf => (h4 hf).elim, fun hf => (h3 hf).elim⟩

/-- C8: `register` fails with the duplicate-service error whenever the
resolved name is already present, and with the no-suitable-methods error
whenever no method of the receiver satisfies the qualification rules
(which coincide with the spec's wording, third conjunct). -/
theorem c8_register_failure_modes
    (m1 m2 : ServiceMapT RegMethod) (r1 r2 : RcvrType) (n1 n2 : String)
    (h1reach : n1 ≠ "" ∨ isExported r1.typeName = true)
    (h1dup : (m1.services.lookup (if n1 ≠ "" then n1 else r1.typeName)).isSome = true)
    (h2reach : n2 ≠ "" ∨ isExported r2.typeName = true)
    (h2dup : m2.services.lookup (if n2 ≠ "" then n2 else r2.typeName) = none)
    (h2qual : ∀ mt ∈ r2.methods, qualifiesSpec mt = false) :
    (serviceRegister m1 r1 n1).2 =
      some ("rpc: service already defined: " ++
            goQuote (if n1 ≠ "" then n1 else r1.typeName)) ∧
    (serviceRegister m2 r2 n2).2 =
      some ("rpc: " ++ goQuote (if n2 ≠ "" then n2 else r2.typeName) ++
            " has no exported methods of suitable type") ∧
    (∀ mt : RMethod, (qualifyMethod mt).isSome = qualifiesSpec mt) := by
  refine ⟨?_, ?_, fun mt => qualify_matches_spec mt⟩
  · have hc : ¬ (n1 = "" ∧ ¬ isExported (if n1 ≠ "" then n1 else r1.typeName) = true) := by
      rintro ⟨he, hne⟩
      rcases h1reach with h | h
      · exact h he
      · rw [if_neg (by simp [he])] at hne
        exact hne h
    simp only [serviceRegister]
    rw [if_neg hc, if_pos h1dup]
  · have hc : ¬ (n2 = "" ∧ ¬ isExported (if n2 ≠ "" then n2 else r2.typeName) = true) := by
      rintro ⟨he, hne⟩
      rcases h2reach with h | h
      · exact h he
      · rw [if_neg (by simp [he])] at hne
        exact hne h
    have hnil : (r2.methods.filterMap
        (fun mt => (qualifyMethod mt).map (fun rm => (mt.name, rm)))) = [] := by
      rw [List.filterMap_eq_nil_iff]
      intro mt hmt
      have h := qualify_matches_spec mt
      rw [h2qual mt hmt] at h
      have hq : qualifyMethod mt = none := by
        cases hq0 : qualifyMethod mt
        · rfl
        · rw [hq0] at h; simp at h
      rw [hq]
      rfl
    simp only [serviceRegister]
    rw [if_neg hc, if_neg (by rw [h2dup]; simp), if_pos (by rw [hnil]; rfl)]

/-- Witness for C8: re-registering `HelloService` reports the duplicate
error, and registering the receiver with an unexported-only method set
reports the no-suitable-methods error. -/
theorem c8_register_failure_modes_witness :
    (dupMapEx.services.lookup
        (if ("" : String) ≠ "" then "" else helloRcvrEx.typeName)).isSome = true ∧
    (∀ mt ∈ badRcvrEx.methods, qualifiesSpec mt = false) ∧
    (serviceRegister dupMapEx helloRcvrEx "").2 =
      some ("rpc: service already defined: " ++
            goQuote (if ("" : String) ≠ "" then "" else helloRcvrEx.typeName)) ∧
    (serviceRegister { services := [] } badRcvrEx "").2 =
      some ("rpc: " ++ goQuote (if ("" : String) ≠ "" then "" else badRcvrEx.typeName) ++
            " has no exported methods of suitable type") :=
  ⟨rfl, by decide,
   (c8_register_failure_modes dupMapEx { services := [] } helloRcvrEx badRcvrEx "" ""
      (Or.inr rfl) rfl (Or.inr rfl) rfl (by decide)).1,
   (c8_register_failure_modes dupMapEx { services := [] } helloRcvrEx badRcvrEx "" ""
      (Or.inr rfl) rfl (Or.inr rfl) rfl (by decide)).2.1⟩


/-! ### C3 -/

/-- Every error `getNormalizedMethod` reports carries the missing method's
name. -/
theorem getNormalizedMethod_error_msg {M : Type} (m : ServiceMapT M) (x e : String)
    (h : getNormalizedMethod m x = some (Except.error e)) :
    e = "rpc: method not found: " ++ x := by
  unfold getNormalizedMethod at h
  split at h
  · simp at h
  · split at h
    · simp at h
    · split at h
      · simp at h
      · simp at h
        exact h.symm

/-- C3: a lookup miss is written with status 404 (plain text) when the
name came from the `/rpc/<name>` path, and with status 400 (JSON error
body) when the name came through the codec; in both cases the body
carries the lookup error text, which names the missing method. -/
theorem c3_lookup_miss_status
    (s : Server) (r1 r2 : HttpRequest) (name1 : String) (e1 e2 : String)
    (h1verb : verbCheck s r1 = none)
    (h1path : startsWithStr r1.path "/rpc/" = true)
    (h1rem : dropStartStr r1.path "/rpc/" = name1)
    (h1ne : name1 ≠ "")
    (h1get : getNormalizedMethod s.services name1 = some (Except.error e1))
    (h2verb : verbCheck s r2 = none)
    (h2path : pathMethod s r2 = some (Except.ok ""))
    (h2sel : selectCodec s r2 = Except.ok true)
    (cr : CodecRequest) (h2new : Codec.newRequest r2 = some cr)
    (m0 : String) (h2m : cr.methodOf = some (Except.ok m0))
    (h2get : getNormalizedMethod s.services m0 = some (Except.error e2)) :
    serveHTTP s r1 = some ⟨⟨404, RespBody.text e1⟩, [Event.wrote 404], none⟩ ∧
    serveHTTP s r2 =
      some ⟨⟨400, RespBody.json Json.null (Json.str e2)⟩, [Event.wrote 400], none⟩ ∧
    e1 = "rpc: method not found: " ++ name1 ∧
    e2 = "rpc: method not found: " ++ m0 := by
  refine ⟨?_, ?_, getNormalizedMethod_error_msg s.services name1 e1 h1get,
          getNormalizedMethod_error_msg s.services m0 e2 h2get⟩
  · have hp : pathMethod s r1 = some (Except.error (writeErrorPlain 404 e1)) := by
      simp [pathMethod, h1path, h1rem, h1ne, h1get]
    unfold serveHTTP
    simp [h1verb, hp, writeErrorPlain]
  · have hres : resolveMethod s cr "" = some (Except.error (GoError.plain e2)) := by
      simp [resolveMethod, h2m, h2get]
    unfold serveHTTP
    simp [h2verb, h2path, h2sel, h2new, hres, CodecRequest.writeError]

/-- Witness for C3: against the empty registry, the path route answers
404 and the body route answers 400, both naming the missing method. -/
theorem c3_lookup_miss_status_witness :
    getNormalizedMethod srvC1ex.services "helloservice.missing" =
      some (Except.error "rpc: method not found: helloservice.missing") ∧
    serveHTTP srvC1ex rMissPathEx =
      some ⟨⟨404, RespBody.text "rpc: method not found: helloservice.missing"⟩,
            [Event.wrote 404], none⟩ ∧
    serveHTTP srvC1ex rMissBodyEx =
      some ⟨⟨400, RespBody.json Json.null
              (Json.str "rpc: method not found: helloservice.missing")⟩,
            [Event.wrote 400], none⟩ :=
  ⟨rfl,
   (c3_lookup_miss_status srvC1ex rMissPathEx rMissBodyEx "helloservice.missing"
      "rpc: method not found: helloservice.missing"
      "rpc: method not found: helloservice.missing"
      rfl rfl rfl (by decide) rfl rfl rfl rfl crMissEx rfl
      "helloservice.missing" rfl rfl).1,
   (c3_lookup_miss_status srvC1ex rMissPathEx rMissBodyEx "helloservice.missing"
      "rpc: method not found: helloservice.missing"
      "rpc: method not found: helloservice.missing"
      rfl rfl rfl (by decide) rfl rfl rfl rfl crMissEx rfl
      "helloservice.missing" rfl rfl).2.1⟩

/-! ### C5 -/

/-- C5: when argument decoding fails for a method with args, the
dispatcher answers 400 with the decode error exactly when the args struct
has an exported field; with no exported fields it proceeds to the
invocation stage with the zero-valued (no-arguments) args. -/
theorem c5_decode_failure (s : Server) (r : HttpRequest)
    (hverb : verbCheck s r = none)
    (mfp : String) (hpath : pathMethod s r = some (Except.ok mfp))
    (hsel : selectCodec s r = Except.ok true)
    (cr : CodecRequest) (hnew : Codec.newRequest r = some cr)
    (method : String) (hres : resolveMethod s cr mfp = some (Except.ok method))
    (svc : ServiceT DMethod) (ms : DMethod)
    (hget : serviceGet s.services method = Except.ok (svc, ms))
    (hnoargs : ms.noArgs = false)
    (e : GoError) (v : Option Json) (hread : cr.readRequest ms = some (some e, v)) :
    (ms.argsFieldPkgPaths.any (fun p => p = "") = true →
       serveHTTP s r = some ⟨CodecRequest.writeError 400 e, [Event.wrote 400], none⟩) ∧
    (ms.argsFieldPkgPaths.any (fun p => p = "") = false →
       serveHTTP s r = some (afterArgs s r method ms none)) := by
  constructor
  · intro hany
    unfold serveHTTP
    simp [hverb, hpath, hsel, hnew, hres, hget, hnoargs, hread, hany,
          CodecRequest.writeError]
  · intro hany
    unfold serveHTTP
    simp [hverb, hpath, hsel, hnew, hres, hget, hnoargs, hread, hany]

/-- Witness for C5: the same failing decode yields a 400 when the args
struct has an exported field and is suppressed when it has none. -/
theorem c5_decode_failure_witness :
    decodeFailA.argsFieldPkgPaths.any (fun p => p = "") = true ∧
    decodeFailB.argsFieldPkgPaths.any (fun p => p = "") = false ∧
    serveHTTP srvDecodeA rDecodeEx =
      some ⟨CodecRequest.writeError 400 (GoError.plain "json: cannot unmarshal"),
            [Event.wrote 400], none⟩ ∧
    serveHTTP srvDecodeB rDecodeEx =
      some (afterArgs srvDecodeB rDecodeEx "Svc.Do" decodeFailB none) :=
  ⟨by decide, by decide,
   (c5_decode_failure srvDecodeA rDecodeEx rfl "" rfl rfl crDecodeEx rfl "Svc.Do" rfl
      { name := "Svc", methods := [("Do", decodeFailA)] } decodeFailA rfl rfl
      (GoError.plain "json: cannot unmarshal") none rfl).1 (by decide),
   (c5_decode_failure srvDecodeB rDecodeEx rfl "" rfl rfl crDecodeEx rfl "Svc.Do" rfl
      { name := "Svc", methods := [("Do", decodeFailB)] } decodeFailB rfl rfl
      (GoError.plain "json: cannot unmarshal") none rfl).2 (by decide)⟩

/-! ### C6 -/

/-- The intercept block emits no event or one `interceptCalled` event. -/
theorem interceptStep_snd (s : Server) (r : HttpRequest) (method : String) :
    (interceptStep s r method).2 = [] ∨
    (interceptStep s r method).2 = [Event.interceptCalled] := by
  unfold interceptStep
  cases s.interceptFunc with
  | none => exact Or.inl rfl
  | some f =>
      rcases hf : f { method := method, request := r } with _ | req <;> simp [hf]

/-- The validate block emits no event or one `validateCalled` event. -/
theorem validateStep_snd (s : Server) (ri : RequestInfo) (ms : DMethod)
    (argsVal : Option Json) :
    (validateStep s ri ms argsVal).2 = [] ∨
    (validateStep s ri ms argsVal).2 = [Event.validateCalled] := by
  unfold validateStep
  cases s.validateFunc with
  | none => exact Or.inl rfl
  | some f => by_cases hn : ms.noArgs = true <;> simp [hn]

/-- C6: when a validate hook is registered and the method takes args, a
rejecting hook becomes the method's outcome: the dispatch tail runs, the
response is the codec's 400 error encoding of the hook's error, the hook
was called, the method is never invoked, and the reply stays the zero
value. -/
theorem c6_validate_short_circuits (s : Server) (r : HttpRequest)
    (hverb : verbCheck s r = none)
    (mfp : String) (hpath : pathMethod s r = some (Except.ok mfp))
    (hsel : selectCodec s r = Except.ok true)
    (cr : CodecRequest) (hnew : Codec.newRequest r = some cr)
    (method : String) (hres : resolveMethod s cr mfp = some (Except.ok method))
    (svc : ServiceT DMethod) (ms : DMethod)
    (hget : serviceGet s.services method = Except.ok (svc, ms))
    (hnoargs : ms.noArgs = false)
    (argsVal : Option Json) (hread : cr.readRequest ms = some (none, argsVal))
    (f : RequestInfo → Option Json → Option GoError)
    (hvf : s.validateFunc = some f)
    (e : GoError)
    (hferr : f { method := method, request := (interceptStep s r method).1 } argsVal
               = some e) :
    serveHTTP s r = some (afterArgs s r method ms argsVal) ∧
    (afterArgs s r method ms argsVal).response = CodecRequest.writeError 400 e ∧
    Event.validateCalled ∈ (afterArgs s r method ms argsVal).events ∧
    Event.methodInvoked ∉ (afterArgs s r method ms argsVal).events ∧
    (afterArgs s r method ms argsVal).finalReply = some ms.replyZero := by
  have hv : validateStep s { method := method, request := (interceptStep s r method).1 }
      ms argsVal = (some e, [Event.validateCalled]) := by
    unfold validateStep
    rw [hvf]
    simp [hnoargs, hferr]
  have h1 := interceptStep_snd s r method
  refine ⟨?_, ?_, ?_, ?_, ?_⟩
  · unfold serveHTTP
    simp [hverb, hpath, hsel, hnew, hres, hget, hnoargs, hread]
  · simp [afterArgs, hv]
  · rcases h1 with he | he <;> by_cases hb : s.beforeFunc = true <;>
      by_cases ha : s.afterFunc = true <;>
      simp [afterArgs, hv, he, hb, ha]
  · rcases h1 with he | he <;> by_cases hb : s.beforeFunc = true <;>
      by_cases ha : s.afterFunc = true <;>
      simp [afterArgs, hv, he, hb, ha]
  · simp [afterArgs, hv]

/-- Witness for C6: the rejecting hook makes the concrete dispatch answer
the 400 encoding of `"rejected"` without invoking `Svc.Do`. -/
theorem c6_validate_short_circuits_witness :
    srvValEx.validateFunc = some valRejectEx ∧
    serveHTTP srvValEx rDecodeEx =
      some (afterArgs srvValEx rDecodeEx "Svc.Do" okArgsEx (some (Json.str "x"))) ∧
    (afterArgs srvValEx rDecodeEx "Svc.Do" okArgsEx (some (Json.str "x"))).response =
      CodecRequest.writeError 400 (GoError.plain "rejected") ∧
    Event.methodInvoked ∉
      (afterArgs srvValEx rDecodeEx "Svc.Do" okArgsEx (some (Json.str "x"))).events ∧
    (afterArgs srvValEx rDecodeEx "Svc.Do" okArgsEx (some (Json.str "x"))).finalReply =
      some okArgsEx.replyZero :=
  ⟨rfl,
   (c6_validate_short_circuits srvValEx rDecodeEx rfl "" rfl rfl crDecodeEx rfl
      "Svc.Do" rfl { name := "Svc", methods := [("Do", okArgsEx)] } okArgsEx rfl rfl
      (some (Json.str "x")) rfl valRejectEx rfl (GoError.plain "rejected") rfl).1,
   (c6_validate_short_circuits srvValEx rDecodeEx rfl "" rfl rfl crDecodeEx rfl
      "Svc.Do" rfl { name := "Svc", methods := [("Do", okArgsEx)] } okArgsEx rfl rfl
      (some (Json.str "x")) rfl valRejectEx rfl (GoError.plain "rejected") rfl).2.1,
   (c6_validate_short_circuits srvValEx rDecodeEx rfl "" rfl rfl crDecodeEx rfl
      "Svc.Do" rfl { name := "Svc", methods := [("Do", okArgsEx)] } okArgsEx rfl rfl
      (some (Json.str "x")) rfl valRejectEx rfl (GoError.plain "rejected") rfl).2.2.2.1,
   (c6_validate_short_circuits srvValEx rDecodeEx rfl "" rfl rfl crDecodeEx rfl
      "Svc.Do" rfl { name := "Svc", methods := [("Do", okArgsEx)] } okArgsEx rfl rfl
      (some (Json.str "x")) rfl valRejectEx rfl (GoError.plain "rejected") rfl).2.2.2.2⟩

/-! ### C7 -/

/-- Intercept events carry no after-call and no write. -/
theorem benign_intercept (s : Server) (r : HttpRequest) (method : String) :
    ∀ ev ∈ (interceptStep s r method).2, ev.isAfter = false ∧ ev.isWrite = false := by
  intro ev hev
  rcases interceptStep_snd s r method with he | he <;> rw [he] at hev
  · simp at hev
  · simp at hev
    subst hev
    exact ⟨rfl, rfl⟩

/-- Before-hook events carry no after-call and no write. -/
theorem benign_before (s : Server) :
    ∀ ev ∈ (if s.beforeFunc then [Event.beforeCalled] else ([] : List Event)),
      ev.isAfter = false ∧ ev.isWrite = false := by
  intro ev hev
  by_cases hb : s.beforeFunc = true <;> simp [hb] at hev
  subst hev
  exact ⟨rfl, rfl⟩

/-- Validate events carry no after-call and no write. -/
theorem benign_validate (s : Server) (ri : RequestInfo) (ms : DMethod)
    (argsVal : Option Json) :
    ∀ ev ∈ (validateStep s ri ms argsVal).2, ev.isAfter = false ∧ ev.isWrite = false := by
  intro ev hev
  rcases validateStep_snd s ri ms argsVal with he | he <;> rw [he] at hev
  · simp at hev
  · simp at hev
    subst hev
    exact ⟨rfl, rfl⟩

/-- The dispatch tail with an after hook always ends its trace with the
response write followed by exactly one after call carrying the method
name, the outcome error and the written status. -/
theorem afterArgs_shape (s : Server) (r : HttpRequest) (method : String) (ms : DMethod)
    (argsVal : Option Json) (hafter : s.afterFunc = true) :
    ∃ pre errR,
      (afterArgs s r method ms argsVal).events =
        pre ++ [Event.wrote (afterArgs s r method ms argsVal).response.status,
                Event.afterCalled method errR
                  (afterArgs s r method ms argsVal).response.status] ∧
      (∀ ev ∈ pre, ev.isAfter = false ∧ ev.isWrite = false) ∧
      ((errR = none) ↔ (afterArgs s r method ms argsVal).response.status = 200) := by
  rcases hv : validateStep s { method := method, request := (interceptStep s r method).1 }
      ms argsVal with ⟨vErr, ev3⟩
  cases vErr with
  | some e =>
      refine ⟨(interceptStep s r method).2 ++
              (if s.beforeFunc then [Event.beforeCalled] else []) ++ ev3, some e, ?_, ?_, ?_⟩
      · simp [afterArgs, hafter, hv, CodecRequest.writeError]
      · intro ev hev
        simp only [List.append_assoc, List.mem_append] at hev
        rcases hev with h | h | h
        · exact benign_intercept s r method ev h
        · exact benign_before s ev h
        · exact benign_validate s _ ms argsVal ev (by rw [hv]; exact h)
      · simp [afterArgs, hafter, hv, CodecRequest.writeError]
  | none =>
      rcases hi : ms.impl (interceptStep s r method).1 argsVal with ⟨rep, err⟩
      cases err with
      | none =>
          refine ⟨(interceptStep s r method).2 ++
                  (if s.beforeFunc then [Event.beforeCalled] else []) ++ ev3 ++
                  [Event.methodInvoked], none, ?_, ?_, ?_⟩
          · simp [afterArgs, hafter, hv, hi, CodecRequest.writeResponse]
          · intro ev hev
            simp only [List.append_assoc, List.mem_append] at hev
            rcases hev with h | h | h | h
            · exact benign_intercept s r method ev h
            · exact benign_before s ev h
            · exact benign_validate s _ ms argsVal ev (by rw [hv]; exact h)
            · simp at h
              subst h
              exact ⟨rfl, rfl⟩
          · simp [afterArgs, hafter, hv, hi, CodecRequest.writeResponse]
      | some e2 =>
          refine ⟨(interceptStep s r method).2 ++
                  (if s.beforeFunc then [Event.beforeCalled] else []) ++ ev3 ++
                  [Event.methodInvoked], some e2, ?_, ?_, ?_⟩
          · simp [afterArgs, hafter, hv, hi, CodecRequest.writeError]
          · intro ev hev
            simp only [List.append_assoc, List.mem_append] at hev
            rcases hev with h | h | h | h
            · exact benign_intercept s r method ev h
            · exact benign_before s ev h
            · exact benign_validate s _ ms argsVal ev (by rw [hv]; exact h)
            · simp at h
              subst h
              exact ⟨rfl, rfl⟩
          · simp [afterArgs, hafter, hv, hi, CodecRequest.writeError]

/-- C7 counterexample: the claim says the after hook runs exactly once
for every request the dispatcher handles, but a handled request rejected
at the verb check writes its 405 response and never triggers the after
hook. -/
theorem c7_counterexample :
    srvAfterEx.afterFunc = true ∧
    serveHTTP srvAfterEx rBadVerbEx =
      some ⟨⟨405,
        RespBody.text "rpc: only POST,GET,PUT methods are allowed, received DELETE"⟩,
        [Event.wrote 405], none⟩ ∧
    (serveHTTP srvAfterEx rBadVerbEx).map
        (fun res => (res.events.filter (fun ev => ev.isAfter)).length) = some 0 :=
  ⟨rfl, rfl, rfl⟩

/-- C7 (amended): for every request that reaches the invocation stage
(verb allowed, codec found, method resolved, arguments decoded), the
registered after hook runs exactly once, immediately after the single
response write, receiving the resolved method name, the outcome error
(`none` exactly when the written status is 200) and the written status;
requests rejected before that stage never trigger it. -/
theorem c7_after_runs_once_after_write (s : Server) (r : HttpRequest)
    (hverb : verbCheck s r = none)
    (mfp : String) (hpath : pathMethod s r = some (Except.ok mfp))
    (hsel : selectCodec s r = Except.ok true)
    (cr : CodecRequest) (hnew : Codec.newRequest r = some cr)
    (method : String) (hres : resolveMethod s cr mfp = some (Except.ok method))
    (svc : ServiceT DMethod) (ms : DMethod)
    (hget : serviceGet s.services method = Except.ok (svc, ms))
    (hnoargs : ms.noArgs = false)
    (argsVal : Option Json) (hread : cr.readRequest ms = some (none, argsVal))
    (hafter : s.afterFunc = true) :
    serveHTTP s r = some (afterArgs s r method ms argsVal) ∧
    (∃ pre errR,
      (afterArgs s r method ms argsVal).events =
        pre ++ [Event.wrote (afterArgs s r method ms argsVal).response.status,
                Event.afterCalled method errR
                  (afterArgs s r method ms argsVal).response.status] ∧
      (∀ ev ∈ pre, ev.isAfter = false ∧ ev.isWrite = false) ∧
      ((errR = none) ↔ (afterArgs s r method ms argsVal).response.status = 200)) := by
  constructor
  · unfold serveHTTP
    simp [hverb, hpath, hsel, hnew, hres, hget, hnoargs, hread]
  · exact afterArgs_shape s r method ms argsVal hafter

/-- Witness for C7: the concrete dispatch through `srvC7Ex` ends in the
write-then-after pair. -/
theorem c7_after_runs_once_after_write_witness :
    srvC7Ex.afterFunc = true ∧
    serveHTTP srvC7Ex rDecodeEx = some c7ResultEx ∧
    (∃ pre errR,
      c7ResultEx.events =
        pre ++ [Event.wrote c7ResultEx.response.status,
                Event.afterCalled "Svc.Do" errR c7ResultEx.response.status] ∧
      (∀ ev ∈ pre, ev.isAfter = false ∧ ev.isWrite = false) ∧
      ((errR = none) ↔ c7ResultEx.response.status = 200)) :=
  ⟨rfl,
   (c7_after_runs_once_after_write srvC7Ex rDecodeEx rfl "" rfl rfl crDecodeEx rfl
      "Svc.Do" rfl { name := "Svc", methods := [("Do", okArgsEx)] } okArgsEx rfl rfl
      (some (Json.str "x")) rfl rfl).1,
   (c7_after_runs_once_after_write srvC7Ex rDecodeEx rfl "" rfl rfl crDecodeEx rfl
      "Svc.Do" rfl { name := "Svc", methods := [("Do", okArgsEx)] } okArgsEx rfl rfl
      (some (Json.str "x")) rfl rfl).2⟩

end Rpc
